import Mathlib

/-!
Verification development for the AAFInspector-Extended repository.

The repository has two halves:

* three projection tools (AAFInspector.py, AAFInspector-enhanced.py,
  AAFInspector-Extended-Batch.py) that turn an aaf2 object graph into a
  generic JSON tree of nodes of the shape
  { name, class, value?, children? }, and

* a reconstruction script (parse_aaf.py) that consumes such a JSON tree
  and rebuilds an editorial timeline.

This file gives a shallow embedding of both halves and settles the frozen
claims against it.  All definitions are translated from the Python source;
whenever Python behaviour on malformed input (for example iterating a
non-list) is approximated, the approximation is recorded in a comment next
to the definition.
-/

/- ================================================================
   Part 1.  The JSON document model used by parse_aaf.py.

   A value loaded by json.load is a bool, number, string, list or dict
   (with string keys).  JSON null is representable in a document, but the
   script only ever observes values through dict.get, which returns Python
   None both for a missing key and for a key bound to null; we therefore
   model a null-valued field as an absent field (the two are
   indistinguishable through every access the script performs except the
   bare membership test, which no claim exercises on null fields).
   ================================================================ -/

inductive JVal where
  | jbool (b : Bool)
  | jint (n : Int)
  | jfloat (q : Rat)
  | jstr (s : String)

inductive Json where
  | scalar (v : JVal)
  | arr (elems : List Json)
  | jdict (fields : List (String × Json))

/-- Shorthand for a JSON string value. -/
def jstrV (s : String) : Json := .scalar (.jstr s)

def Json.isDict : Json → Bool
  | .jdict _ => true
  | _ => false

/-- Python dict.get k on a JSON object: first binding of the key, None
otherwise.  On a non-dict value .get would raise AttributeError; callers in
the source always guard with isinstance(.., dict) except where noted. -/
def pyGet (j : Json) (k : String) : Option Json :=
  match j with
  | .jdict kvs => kvs.lookup k
  | _ => none

/-- Python membership test, "k in node", for a dict node.  (Membership on a
non-dict would raise TypeError or perform substring search; no live code
path reaches that case.) -/
def hasKey (j : Json) (k : String) : Bool := (pyGet j k).isSome

/-- Python truthiness of a JSON value. -/
def pyTruthy : Json → Bool
  | .scalar (.jbool b) => b
  | .scalar (.jint n) => n != 0
  | .scalar (.jfloat q) => q != 0
  | .scalar (.jstr s) => s != ""
  | .arr l => !l.isEmpty
  | .jdict kvs => !kvs.isEmpty

/-- Python int(x).  Unparseable strings raise ValueError (modeled as error);
containers raise TypeError.  (Python also accepts surrounding whitespace,
an explicit plus sign and underscore separators in numeric strings; those
forms are not modeled.)  Floats truncate toward zero. -/
def pyInt : Json → Except Unit Int
  | .scalar (.jint n) => .ok n
  | .scalar (.jbool b) => .ok (if b then 1 else 0)
  | .scalar (.jfloat q) => .ok (if 0 ≤ q then q.floor else -((-q).floor))
  | .scalar (.jstr s) =>
      match s.toInt? with
      | some n => .ok n
      | none => .error ()
  | _ => .error ()

/-- Python iteration, "for x in j".  Lists yield elements, dicts yield their
keys, strings yield one-character strings, and all other values raise
TypeError. -/
def pyIter : Json → Except Unit (List Json)
  | .arr l => .ok l
  | .jdict kvs => .ok (kvs.map fun kv => jstrV kv.fst)
  | .scalar (.jstr s) => .ok (s.data.map fun c => jstrV (String.mk [c]))
  | .scalar _ => .error ()

/-- The list behind a "children" field when that field holds a JSON array,
and [] otherwise.  Python code that iterates node["children"] directly
would raise TypeError on a non-list value; the claims never distinguish
such malformed documents from childless ones, so they are collapsed to []
here (each use site is marked). -/
def childrenList (j : Json) : List Json :=
  match pyGet j "children" with
  | some (.arr l) => l
  | _ => []

/-- Python equality test of an optional JSON value against a string literal
(child.get(k) == s): true exactly when the value is that string. -/
def eqStr (j : Option Json) (s : String) : Bool :=
  match j with
  | some (.scalar (.jstr t)) => t == s
  | _ => false

/-- Test component.get("class") == s. -/
def classIs (c : Json) (s : String) : Bool := eqStr (pyGet c "class") s

/- ================================================================
   Part 2.  parse_aaf.py, the timeline reconstructor.
   ================================================================ -/

/-- get_child_property(node, child_name, property_name) from parse_aaf.py.
The property name is Optional: the script passes property_name=None at four
call sites (Slots, Parameters, ControlPoints, Source Mob Ref).  Python then
evaluates child.get(None), which on a string-keyed dict is always None --
there is no "return the child itself" branch in the source.  The scan stops
at the first child whose name matches, exactly as the Python loop returns
from inside the loop body. -/
def get_child_property (node : Json) (child_name : String)
    (property_name : Option String) : Option Json :=
  match node with
  | .jdict _ =>
      if hasKey node "children" then
        match (childrenList node).find?
            (fun child => child.isDict && eqStr (pyGet child "name") child_name) with
        | some child =>
            match property_name with
            | some p => pyGet child p
            | none => none
        | none => none
      else none
  | _ => none

/-- Central consequence of the source's helper: a lookup made with
property_name=None can never produce a node. -/
theorem get_child_property_none (node : Json) (child_name : String) :
    get_child_property node child_name none = none := by
  unfold get_child_property
  cases node with
  | scalar v => rfl
  | arr l => rfl
  | jdict kvs =>
      simp only
      split
      · split <;> rfl
      · rfl

/-- Keyframe record from parse_keyframes: both fields are taken verbatim
from the document. -/
structure Keyframe where
  time_offset : Json
  value : Json

/-- EffectEvent record from parse_effect.  animated_params is a Python dict
keyed by the parameter display name (an arbitrary JSON value via .get with
default); insertion order is preserved, so it is modeled as an association
list. -/
structure EffectEvent where
  name : Json
  animated_params : List (Json × List Keyframe)

/-- TimelineEvent record built in parse_components.  The constant field
type = "Clip" present in the Python dict is omitted from the structure
since it carries no information. -/
structure TimelineEvent where
  event_number : Nat
  name : Json
  start_time_frames : Int
  duration_frames : Int
  source_in_tc : Option Json
  effects : List EffectEvent

/-- parse_keyframes(varying_value_node).  A non-dict argument raises
AttributeError at the .get call (modeled as error).  The ControlPoints
wrapper lookup is made with property_name=None and therefore never fires
(see get_child_property_none); the loop always runs over the node's direct
children. -/
def parse_keyframes (vv : Json) : Except Unit (List Keyframe) :=
  if !vv.isDict then .error ()
  else
    let pts0 : Json := (pyGet vv "children").getD (.arr [])
    let ptsJ : Json :=
      match get_child_property vv "ControlPoints" none with
      | some w => if pyTruthy w then (pyGet w "children").getD (.arr []) else pts0
      | none => pts0
    match pyIter ptsJ with
    | .error e => .error e
    | .ok pts =>
        .ok (pts.filterMap fun n =>
          if n.isDict && classIs n "ControlPoint" then
            match get_child_property n "Time" (some "value"),
                  get_child_property n "Value" (some "value") with
            | some t, some v => some ⟨t, v⟩
            | _, _ => none
          else none)

/-- Python equality of two JSON scalars used as dict keys (numbers compare
across bool/int/float; containers are unhashable and could not be dict
keys in the first place -- such junk keys are treated as distinct). -/
def numVal : JVal → Option Rat
  | .jbool b => some (if b then 1 else 0)
  | .jint n => some (n : Rat)
  | .jfloat q => some q
  | .jstr _ => none

def pyKeyEq (a b : Json) : Bool :=
  match a, b with
  | .scalar x, .scalar y =>
      match numVal x, numVal y with
      | some p, some q => p == q
      | _, _ =>
          match x, y with
          | .jstr s, .jstr t => s == t
          | _, _ => false
  | _, _ => false

/-- Python dict assignment d[k] = v on an insertion-ordered association
list: replace the first binding of an existing key, else append. -/
def assocSet (l : List (Json × List Keyframe)) (k : Json) (v : List Keyframe) :
    List (Json × List Keyframe) :=
  if l.any (fun e => pyKeyEq e.fst k) then
    l.map (fun e => if pyKeyEq e.fst k then (e.fst, v) else e)
  else l ++ [(k, v)]

/-- One iteration of the parameter loop in parse_effect. -/
def paramStep (acc : List (Json × List Keyframe)) (p : Json) :
    Except Unit (List (Json × List Keyframe)) :=
  if p.isDict && classIs p "VaryingValue" then
    match parse_keyframes p with
    | .error e => .error e
    | .ok kfs =>
        let pname := (pyGet p "name").getD (jstrV "Unknown Parameter")
        .ok (if kfs.isEmpty then acc else assocSet acc pname kfs)
  else .ok acc

/-- parse_effect(effect_node).  A non-dict argument raises AttributeError
at .get (modeled as error).  The Parameters lookup is made with
property_name=None, so it always yields None and the function always
returns with animated_params empty; the parameter loop below it is kept
for fidelity but is unreachable. -/
def parse_effect (j : Json) : Except Unit EffectEvent :=
  if !j.isDict then .error ()
  else
    let nm := (pyGet j "name").getD (jstrV "Unknown Effect")
    match get_child_property j "Parameters" none with
    | none => .ok ⟨nm, []⟩
    | some params =>
        if !pyTruthy params || !hasKey params "children" then .ok ⟨nm, []⟩
        else
          match pyIter ((pyGet params "children").getD (.arr [])) with
          | .error e => .error e
          | .ok ps =>
              match ps.foldlM paramStep [] with
              | .error e => .error e
              | .ok l => .ok ⟨nm, l⟩

/-- timeline[-1].effects.append(effect): rebuild the list with the effect
appended to the last event.  The caller guards against an empty list. -/
def appendEffectLast (tl : List TimelineEvent) (eff : EffectEvent) :
    List TimelineEvent :=
  match tl with
  | [] => []
  | [e] => [{ e with effects := e.effects ++ [eff] }]
  | e :: e2 :: rest => e :: appendEffectLast (e2 :: rest) eff

/-- int(get_child_property(c, "Length", "value") or 0): a missing or falsy
value defaults to 0 before int() is applied; a truthy unparseable value
reaches int() and raises. -/
def pyIntOrZero (v : Option Json) : Except Unit Int :=
  match v with
  | none => .ok 0
  | some j => if pyTruthy j then pyInt j else .ok 0

/-- Clip display-name resolution in parse_components.  The Source Mob Ref
lookup is made with property_name=None so the wrapper branch never fires
and the name is always "Unknown Clip"; the branch body is kept for
fidelity.  (In that unreachable body Python would additionally raise when
indexing a truthy non-list children value or calling .get on a non-dict
first child; both are approximated by the default name.) -/
def clipNameOf (c : Json) : Json :=
  match get_child_property c "Source Mob Ref" none with
  | some ref =>
      if pyTruthy ref && hasKey ref "children"
          && pyTruthy ((pyGet ref "children").getD (.arr [])) then
        match childrenList ref with
        | first :: _ => (pyGet first "name").getD (jstrV "Unknown Clip")
        | [] => jstrV "Unknown Clip"
      else jstrV "Unknown Clip"
  | none => jstrV "Unknown Clip"

/-- One iteration of the component loop in parse_components.  The running
state is (timeline so far, current_time_frames). -/
def componentStep (st : List TimelineEvent × Int) (c : Json) :
    Except Unit (List TimelineEvent × Int) :=
  if !c.isDict then .ok st
  else if classIs c "SourceClip" then
    match pyIntOrZero (get_child_property c "Length" (some "value")) with
    | .error e => .error e
    | .ok duration =>
        let tc := get_child_property c "StartTime" (some "value")
        let ev : TimelineEvent :=
          ⟨st.1.length + 1, clipNameOf c, st.2, duration, tc, []⟩
        .ok (st.1 ++ [ev], st.2 + duration)
  else if classIs c "OperationGroup" then
    if st.1.isEmpty then .ok st
    else
      match parse_effect c with
      | .error e => .error e
      | .ok eff =>
          if eff.animated_params.isEmpty then .ok st
          else .ok (appendEffectLast st.1 eff, st.2)
  else .ok st

/-- The component loop itself, started from an arbitrary state; an
exception in an iteration propagates out of the loop. -/
def runComponents (st : List TimelineEvent × Int) :
    List Json → Except Unit (List TimelineEvent × Int)
  | [] => .ok st
  | c :: rest =>
      match componentStep st c with
      | .error e => .error e
      | .ok st2 => runComponents st2 rest

/-- parse_components(components_node): guard clause, then the loop from
(empty timeline, cursor 0). -/
def parse_components (node : Json) : Except Unit (List TimelineEvent) :=
  if !pyTruthy node || !hasKey node "children" then .ok []
  else
    match pyIter ((pyGet node "children").getD (.arr [])) with
    | .error e => .error e
    | .ok cs =>
        match runComponents ([], 0) cs with
        | .error e => .error e
        | .ok st => .ok st.1

/- Size lemmas supporting the recursion of find_components_recursively. -/

theorem sizeOf_lookup_json {kvs : List (String × Json)} {k : String} {v : Json}
    (h : kvs.lookup k = some v) : sizeOf v < sizeOf kvs := by
  induction kvs with
  | nil => simp [List.lookup] at h
  | cons hd tl ih =>
      rw [List.lookup] at h
      split at h
      · cases h; cases hd; simp; omega
      · have := ih h
        cases hd; simp; omega

theorem sizeOf_childrenList {c j : Json} (h : c ∈ childrenList j) :
    sizeOf c < sizeOf j := by
  match j with
  | .scalar v => simp [childrenList, pyGet] at h
  | .arr l => simp [childrenList, pyGet] at h
  | .jdict kvs =>
      unfold childrenList pyGet at h
      revert h
      split
      case _ l heq =>
        intro hm
        have h1 : sizeOf (Json.arr l) < sizeOf kvs := sizeOf_lookup_json heq
        have h2 := List.sizeOf_lt_of_mem hm
        simp only [Json.arr.sizeOf_spec, Json.jdict.sizeOf_spec] at h1 ⊢
        omega
      · intro h; simp at h

theorem one_le_sizeOf_list {α : Type} [SizeOf α] (l : List α) : 1 ≤ sizeOf l := by
  cases l with
  | nil => simp
  | cons a as => simp; omega

theorem sizeOf_childrenList_self (j : Json) : sizeOf (childrenList j) < sizeOf j := by
  match j with
  | .scalar v =>
      have : childrenList (.scalar v) = [] := rfl
      rw [this]
      cases v <;> simp
  | .arr l =>
      have h0 : childrenList (.arr l) = [] := rfl
      have h1 := one_le_sizeOf_list l
      rw [h0]
      simp
      omega
  | .jdict kvs =>
      have h1 := one_le_sizeOf_list kvs
      unfold childrenList pyGet
      simp only
      split
      case _ l heq =>
        have h2 : sizeOf (Json.arr l) < sizeOf kvs := sizeOf_lookup_json heq
        simp only [Json.arr.sizeOf_spec, Json.jdict.sizeOf_spec] at h2 ⊢
        omega
      · simp
        omega

mutual

/-- find_components_recursively(node): return the node itself when it is a
dict named "Components" with a "children" key, else scan the children
depth-first, left to right.  (Iterating a non-list children value would
raise in Python; such nodes are treated as childless here.) -/
def find_components_recursively (j : Json) : Option Json :=
  if j.isDict && eqStr (pyGet j "name") "Components" && hasKey j "children" then
    some j
  else if j.isDict && hasKey j "children" then
    findComponentsInList (childrenList j)
  else none
termination_by sizeOf j
decreasing_by simp_wf; exact sizeOf_childrenList_self j

/-- The child scan of find_components_recursively: first hit wins.  (The
found node is a dict with a "children" key, hence truthy, so the Python
test "if result:" is a Some test.) -/
def findComponentsInList (cs : List Json) : Option Json :=
  match cs with
  | [] => none
  | c :: rest =>
      match _hc : find_components_recursively c with
      | some r => some r
      | none => findComponentsInList rest
termination_by sizeOf cs
decreasing_by
  all_goals simp_wf
  all_goals omega

end

/-- The slot loop of parse_composition_mob: find a Components node inside
the slot, parse it, and return the first non-empty timeline; otherwise move
on to the next slot.  A parse exception propagates (Python has no handler
here). -/
def firstSlotTimeline : List Json → Except Unit (Option (List TimelineEvent))
  | [] => .ok none
  | slot :: rest =>
      match find_components_recursively slot with
      | some comps =>
          match parse_components comps with
          | .error e => .error e
          | .ok tl => if tl.isEmpty then firstSlotTimeline rest else .ok (some tl)
      | none => firstSlotTimeline rest

/-- parse_composition_mob(comp_mob_node).  The Slots lookup is made with
property_name=None, so it always yields None and the function returns None
before reaching the slot loop; the loop is kept for fidelity.  (The loop
iterates slots_node["children"] directly; the non-list children
approximation of childrenList applies.) -/
def parse_composition_mob (j : Json) : Except Unit (Option (List TimelineEvent)) :=
  match get_child_property j "Slots" none with
  | none => .ok none
  | some slots =>
      if !pyTruthy slots || !hasKey slots "children" then .ok none
      else firstSlotTimeline (childrenList slots)

/-- find_node_by_path(node, path): follow a list of child names from the
root; any step that fails yields None.  (Each step iterates
current["children"] directly; the non-list children approximation of
childrenList applies.) -/
def find_node_by_path (j : Json) (path : List String) : Option Json :=
  path.foldl
    (fun cur key =>
      cur.bind fun c =>
        if c.isDict && hasKey c "children" then
          (childrenList c).find? (fun ch => ch.isDict && eqStr (pyGet ch "name") key)
        else none)
    (some j)

/-- Outcome of main(json_path) after the file has been loaded, mirroring
the mutually exclusive prints of the script.  File-system errors
(FileNotFoundError, JSONDecodeError) happen before the data exists and are
outside the model. -/
inductive MainResult where
  | mobsMissing
  | noCompMobs
  | raised
  | best (tl : List TimelineEvent)
  | noValidTimeline

/-- One iteration of the composition loop in main: parse the mob, test
is_good_parse, and keep the candidate with strictly more events. -/
def selectStep (best : Option (List TimelineEvent)) (mob : Json) :
    Except Unit (Option (List TimelineEvent)) :=
  match parse_composition_mob mob with
  | .error e => .error e
  | .ok none => .ok best
  | .ok (some tl) =>
      match tl with
      | [] => .ok best
      | t0 :: _ =>
          let is_good := tl.length > 1
            || (tl.length == 1 && !(eqStr (some t0.name) "Unknown Clip"))
          if is_good then
            match best with
            | none => .ok (some tl)
            | some b => .ok (if tl.length > b.length then some tl else some b)
          else .ok best

/-- main(json_path) from the point where the JSON document is in memory:
locate Header/Header/Content/ContentStorage/Mobs, filter the
CompositionMob children, run the selection loop, and report either the
best timeline or the corresponding error message. -/
def mainSelect (data : Json) : MainResult :=
  match find_node_by_path data ["Header", "Header", "Content", "ContentStorage", "Mobs"] with
  | none => .mobsMissing
  | some mobs =>
      if !pyTruthy mobs || !hasKey mobs "children" then .mobsMissing
      else
        let compMobs := (childrenList mobs).filter
          (fun m => m.isDict && classIs m "CompositionMob")
        if compMobs.isEmpty then .noCompMobs
        else
          match compMobs.foldlM selectStep none with
          | .error _ => .raised
          | .ok (some tl) => .best tl
          | .ok none => .noValidTimeline

/- ================================================================
   Part 3.  The aaf2 object-graph model shared by the three projection
   tools (AAFInspector.py, AAFInspector-enhanced.py and the batch
   converter).

   The tools observe graph items only through the duck-typed shapes used
   in TreeItem.setup / Worker.build_node: AAF objects (name, class,
   ordered properties, and for source clips the mob/slot back-references),
   the three strong-reference property kinds, plain scalar properties, the
   synthetic DummyItem wrapper injected by the tree, and the list that the
   interactive model wraps as its root.  Scalar property values are
   JSON-serializable primitives; datetime, uuid, bytes and repr fallbacks
   all serialize to strings and are represented by the string case.
   ================================================================ -/

inductive PVal where
  | pnone
  | pbool (b : Bool)
  | pint (n : Int)
  | pstr (s : String)

inductive Item where
  | aafObject (name : Option String) (cls : String) (isCompMob : Bool)
      (props : List Item) (mobTarget : Option Item) (slotTarget : Option Item)
  | refDummy (label : String) (target : Item)
  | strongRef (pname : String) (target : Option Item)
  | strongRefVector (pname : String) (targets : List Item)
  | strongRefSet (pname : String) (entries : List (Nat × Item))
  | scalarProp (pname : String) (v : PVal)
  | rootList (xs : List Item)

/-- Python str.lower() restricted to the ASCII names the tools compare;
Char.toLower lowercases exactly the ASCII uppercase range. -/
def pyLower (s : String) : String := String.mk (s.data.map Char.toLower)

/-- EXCLUDED_NAMES from AAFInspector.py (interactive export filter). -/
def inspExcludedNames : List String :=
  ["a1", "a2", "a3", "a4", "a5", "a6", "a7", "a8", "data"]

/-- EXCLUDED_TRACK_NAMES from AAFInspector-Extended-Batch.py. -/
def batchExcludedTrackNames : List String :=
  ["a1", "a2", "a3", "a4", "a5", "a6", "a7", "a8", "data track"]

/-- The Python name attribute of an item: objects carry an optional name,
DummyItem carries its synthetic label, properties carry their property
definition name, and a plain list has no name attribute. -/
def rawNameAttr : Item → Option String
  | .aafObject nm _ _ _ _ _ => nm
  | .refDummy label _ => some label
  | .strongRef p _ => some p
  | .strongRefVector p _ => some p
  | .strongRefSet p _ => some p
  | .scalarProp p _ => some p
  | .rootList _ => none

/-- getattr(item, "name", ""): key used by the property sort in
TreeItem.setup and by the slot filter in build_node.  (An object whose
name attribute is present but None would make Python raise inside the
respective handler; the claims only concern named items, and the None
case is collapsed to "".) -/
def sortKeyOf (p : Item) : String := (rawNameAttr p).getD ""

/-- Python string comparison: lexicographic on code points. -/
def charListLe : List Char → List Char → Bool
  | [], _ => true
  | _ :: _, [] => false
  | a :: as, b :: bs =>
      if a.toNat < b.toNat then true
      else if b.toNat < a.toNat then false
      else charListLe as bs

def strLeB (s t : String) : Bool := charListLe s.data t.data

/-- Comparison used by sorted(props, key=lambda p: getattr(p, "name", "")). -/
def propLe (a b : Item) : Bool := strLeB (sortKeyOf a) (sortKeyOf b)

/-- Comparison used to sort a set property's reference keys. -/
def entryLe (a b : Nat × Item) : Bool := decide (a.1 ≤ b.1)

/-- sorted(item.references.keys()) applied to the snapshot of a keyed set;
pairs keep their value so that item.get(key) is position lookup (keys in a
dict snapshot are distinct). -/
def sortEntries (es : List (Nat × Item)) : List (Nat × Item) :=
  es.mergeSort entryLe

/-- TreeItem.name(): DummyItem label first, then a truthy name attribute,
then the propertydef name for properties (identical to the name
attribute), finally the class name. -/
def itemCls : Item → String
  | .aafObject _ cls _ _ _ _ => cls
  | .refDummy _ t => itemCls t
  | .strongRef _ _ => "StrongRefProperty"
  | .strongRefVector _ _ => "StrongRefVectorProperty"
  | .strongRefSet _ _ => "StrongRefSetProperty"
  | .scalarProp _ _ => "Property"
  | .rootList _ => "list"

def itemName : Item → String
  | .refDummy label _ => label
  | .aafObject nm cls _ _ _ _ =>
      (match nm with | some s => if s == "" then cls else s | none => cls)
  | .strongRef p _ => p
  | .strongRefVector p _ => p
  | .strongRefSet p _ => p
  | .scalarProp p _ => p
  | .rootList _ => "list"

/-- The Value entry of the properties bag filled by TreeItem.setup; the
exporters re-read the raw (untruncated) property value, so truncation
never reaches the canonical document. -/
def itemValue : Item → Option PVal
  | .scalarProp _ v => some v
  | _ => none

/-- The materialized child list of a TreeItem, fusing setup (eager kinds)
with the on-demand materialization of vector and set kinds: object
properties sorted by name (Python sorted is a stable merge sort), then the
synthetic Source Mob Ref / Source Slot Ref wrappers for source clips;
reference kinds expose their targets; sets follow sorted key order. -/
def matChildren : Item → List Item
  | .aafObject _ _ _ props mt st =>
      props.mergeSort propLe
        ++ (match mt with | some t => [.refDummy "Source Mob Ref" t] | none => [])
        ++ (match st with | some t => [.refDummy "Source Slot Ref" t] | none => [])
  | .refDummy _ t => [t]
  | .strongRef _ t => (match t with | some x => [x] | none => [])
  | .strongRefVector _ ts => ts
  | .strongRefSet _ es => (sortEntries es).map (fun e => e.2)
  | .scalarProp _ _ => []
  | .rootList xs => xs

/-- TreeItem.childCount(): children_count after setup. -/
def childCount (it : Item) : Nat := (matChildren it).length

/-- Python list indexing with negative wrap-around: xs[i] is xs[len + i]
for negative i, and raises IndexError when still out of range. -/
def pyIndexL {α : Type} (xs : List α) (i : Int) : Except Unit α :=
  let j := if i < 0 then i + xs.length else i
  if h : 0 ≤ j ∧ j.toNat < xs.length then .ok (xs.get ⟨j.toNat, h.2⟩)
  else .error ()

/-- The snapshot entries of a keyed-set reference node, when the node is
one. -/
def setEntries : Item → Option (List (Nat × Item))
  | .strongRefSet _ es => some es
  | _ => none

/-- TreeItem.child(row) from both AAFInspector.py and
AAFInspector-enhanced.py, as the value it returns (the per-row cache only
memoizes this value).  After setup, eager kinds hold rows 0..count-1 in
the cache, so other rows fall through the isinstance chain to None; a
vector checks 0 <= row < len; a set only checks row < len(references)
before indexing references[row], so a negative row wraps Python-style or
raises IndexError. -/
def childAt (it : Item) (row : Int) : Except Unit (Option Item) :=
  match it with
  | .strongRefSet _ es =>
      let refs := sortEntries es
      if row < (refs.length : Int) then
        match pyIndexL refs row with
        | .error e => .error e
        | .ok e => .ok (some e.2)
      else .ok none
  | .strongRefVector _ ts =>
      if 0 ≤ row && row < (ts.length : Int) then .ok ts[row.toNat]?
      else .ok none
  | _ =>
      if 0 ≤ row && row < ((matChildren it).length : Int) then
        .ok (matChildren it)[row.toNat]?
      else .ok none

/- The measure used for recursion over items: synthetic wrapper nodes
constructed on the fly around a mob/slot back-reference must weigh less
than the object that injects them, so option fields contribute an extra
two units. -/

def msize : Item → Nat
  | .aafObject _ _ _ props mt st =>
      2 + (props.attach.map fun p => msize p.1).sum
        + (match mt with | some t => 2 + msize t | none => 0)
        + (match st with | some t => 2 + msize t | none => 0)
  | .refDummy _ t => 1 + msize t
  | .strongRef _ t => 1 + (match t with | some x => 1 + msize x | none => 0)
  | .strongRefVector _ ts => 1 + (ts.attach.map fun p => msize p.1).sum
  | .strongRefSet _ es => 1 + (es.attach.map fun e => msize e.1.2).sum
  | .scalarProp _ _ => 1
  | .rootList xs => 1 + (xs.attach.map fun p => msize p.1).sum
decreasing_by
  all_goals simp_wf
  all_goals try omega
  all_goals try (have hp9 := List.sizeOf_lt_of_mem p.2; omega)
  all_goals (rcases e with ⟨⟨k, x⟩, hmem⟩
             have h1 := List.sizeOf_lt_of_mem hmem
             simp at h1 ⊢
             omega)

theorem msize_aafObject (nm : Option String) (cls : String) (b : Bool)
    (props : List Item) (mt st : Option Item) :
    msize (.aafObject nm cls b props mt st)
      = 2 + (props.map msize).sum
        + (match mt with | some t => 2 + msize t | none => 0)
        + (match st with | some t => 2 + msize t | none => 0) := by
  rw [msize.eq_def]; simp

theorem msize_refDummy (label : String) (t : Item) :
    msize (.refDummy label t) = 1 + msize t := by
  rw [msize.eq_def]

theorem msize_strongRef (p : String) (t : Option Item) :
    msize (.strongRef p t)
      = 1 + (match t with | some x => 1 + msize x | none => 0) := by
  rw [msize.eq_def]

theorem msize_strongRefVector (p : String) (ts : List Item) :
    msize (.strongRefVector p ts) = 1 + (ts.map msize).sum := by
  rw [msize.eq_def]; simp

theorem msize_strongRefSet (p : String) (es : List (Nat × Item)) :
    msize (.strongRefSet p es) = 1 + (es.map (fun e => msize e.2)).sum := by
  rw [msize.eq_def]
  simp only []
  have h : (es.attach.map fun e => msize e.1.2)
      = (es.attach.map Subtype.val).map (fun e => msize e.2) := by
    rw [List.map_map]
    rfl
  rw [h, List.attach_map_subtype_val]

theorem msize_rootList (xs : List Item) :
    msize (.rootList xs) = 1 + (xs.map msize).sum := by
  rw [msize.eq_def]; simp

theorem msize_mem_le {p : Item} {ps : List Item} (h : p ∈ ps) :
    msize p ≤ (ps.map msize).sum :=
  List.single_le_sum (fun x _ => Nat.zero_le x) _ (List.mem_map_of_mem msize h)

theorem msize_mem_le_entries {e : Nat × Item} {es : List (Nat × Item)} (h : e ∈ es) :
    msize e.2 ≤ (es.map (fun x => msize x.2)).sum :=
  List.single_le_sum (fun x _ => Nat.zero_le x) _
    (List.mem_map_of_mem (fun x => msize x.2) h)

theorem msize_matChildren {c it : Item} (h : c ∈ matChildren it) :
    msize c < msize it := by
  match it with
  | .aafObject nm cls b props mt st =>
      simp only [matChildren, List.mem_append] at h
      rw [msize_aafObject]
      rcases h with (h | h) | h
      · have := msize_mem_le (List.mem_mergeSort.mp h)
        omega
      · match mt with
        | some t =>
            simp only [List.mem_singleton] at h
            subst h
            rw [msize_refDummy]
            simp only []
            omega
        | none => simp at h
      · match st with
        | some t =>
            simp only [List.mem_singleton] at h
            subst h
            rw [msize_refDummy]
            simp only []
            omega
        | none => simp at h
  | .refDummy label t =>
      simp only [matChildren, List.mem_singleton] at h
      subst h
      rw [msize_refDummy]
      omega
  | .strongRef p t =>
      simp only [matChildren] at h
      match t with
      | some x =>
          simp only [List.mem_singleton] at h
          subst h
          rw [msize_strongRef]
          simp only []
          omega
      | none => simp at h
  | .strongRefVector p ts =>
      simp only [matChildren] at h
      rw [msize_strongRefVector]
      have := msize_mem_le h
      omega
  | .strongRefSet p es =>
      simp only [matChildren, List.mem_map] at h
      obtain ⟨e, he, rfl⟩ := h
      rw [msize_strongRefSet]
      have he2 : e ∈ es := (List.mergeSort_perm es entryLe).mem_iff.mp he
      have := msize_mem_le_entries he2
      omega
  | .scalarProp p v => simp [matChildren] at h
  | .rootList xs =>
      simp only [matChildren] at h
      rw [msize_rootList]
      have := msize_mem_le h
      omega

/- ================================================================
   Part 4.  The three canonical-document builders.
   ================================================================ -/

/-- A node of the canonical JSON document: { name, class, value?,
children? }.  All three exporters attach the children key exactly when the
collected child list is non-empty, so the key's presence is represented by
list non-emptiness. -/
inductive ONode where
  | mk (name : String) (cls : String) (value : Option PVal) (children : List ONode)

def ONode.name : ONode → String
  | .mk n _ _ _ => n

def ONode.cls : ONode → String
  | .mk _ c _ _ => c

def ONode.value : ONode → Option PVal
  | .mk _ _ v _ => v

def ONode.children : ONode → List ONode
  | .mk _ _ _ cs => cs

/-- The sequence "for slot in prop.value" used by build_node when it
splices a CompositionMob's Slots: a vector yields its targets in order, a
set its values (Slots is a vector property in every aaf2 file; other
property kinds are listed for totality and are not exercised). -/
def slotsValueList : Item → List Item
  | .strongRefVector _ ts => ts
  | .strongRefSet _ es => es.map (fun e => e.2)
  | _ => []

theorem msize_prop_lt {p : Item} {nm : Option String} {cls : String} {b : Bool}
    {props : List Item} {mt st : Option Item} (h : p ∈ props) :
    msize p < msize (.aafObject nm cls b props mt st) := by
  rw [msize_aafObject]
  have := msize_mem_le h
  omega

theorem msize_slotsValue {s p : Item} (hs : s ∈ slotsValueList p) :
    msize s < msize p := by
  match p with
  | .strongRefVector q ts =>
      simp only [slotsValueList] at hs
      rw [msize_strongRefVector]
      have := msize_mem_le hs
      omega
  | .strongRefSet q es =>
      simp only [slotsValueList, List.mem_map] at hs
      obtain ⟨e, he, rfl⟩ := hs
      rw [msize_strongRefSet]
      have := msize_mem_le_entries he
      omega
  | .aafObject a b c d e f => simp [slotsValueList] at hs
  | .refDummy a b => simp [slotsValueList] at hs
  | .strongRef a b => simp [slotsValueList] at hs
  | .scalarProp a b => simp [slotsValueList] at hs
  | .rootList a => simp [slotsValueList] at hs

/-- getattr(child_item, "name", child_item.__class__.__name__), the display
name build_node passes for a reference target.  (A name attribute that is
present but None would put a JSON null in the name field; it is collapsed
to the class-name fallback here, which no claim observes.) -/
def buildChildName (c : Item) : String := (rawNameAttr c).getD (itemCls c)

/-- Worker.build_node(item, name) from the batch converter.  An AAFObject
contributes one child per property in the source's property order (no
sort), except that a CompositionMob's Slots property is replaced in place
by its slot targets, keeping only slots whose lower-cased name is not in
EXCLUDED_TRACK_NAMES (no class test).  Reference properties expose their
targets; a plain property carries its raw serialized value.  DummyItem and
list fall into the str(item) fallback branch, which the batch tool never
reaches (it starts from the file header object). -/
def buildNode (it : Item) (nodeName : String) : ONode :=
  match it with
  | .aafObject _ cls isCompMob props _ _ =>
      .mk nodeName cls none
        ((props.attach.map fun p =>
          if isCompMob && (sortKeyOf p.1 == "Slots") then
            ((slotsValueList p.1).attach.map fun s =>
              if batchExcludedTrackNames.contains (pyLower (sortKeyOf s.1)) then
                ([] : List ONode)
              else [buildNode s.1 (sortKeyOf s.1)]).flatten
          else [buildNode p.1 (sortKeyOf p.1)]).flatten)
  | .strongRefVector _ ts =>
      .mk nodeName "StrongRefVectorProperty" none
        (ts.attach.map fun c => buildNode c.1 (buildChildName c.1))
  | .strongRefSet _ es =>
      .mk nodeName "StrongRefSetProperty" none
        ((es.map (fun e => e.2)).attach.map fun c => buildNode c.1 (buildChildName c.1))
  | .strongRef _ t =>
      (match t with
       | some c => .mk nodeName "StrongRefProperty" none [buildNode c (buildChildName c)]
       | none => .mk nodeName "StrongRefProperty" none [])
  | .scalarProp _ v => .mk nodeName "Property" (some v) []
  | .refDummy _ _ => .mk nodeName "DummyItem" (some (.pstr "")) []
  | .rootList _ => .mk nodeName "list" (some (.pstr "")) []
termination_by msize it
decreasing_by
  all_goals simp_wf
  · exact Nat.lt_trans (msize_slotsValue s.2) (msize_prop_lt p.2)
  · exact msize_prop_lt p.2
  · have := msize_mem_le c.2
    rw [msize_strongRefVector]
    omega
  · have hm : c.1 ∈ es.map (fun e => e.2) := c.2
    rw [msize_strongRefSet]
    obtain ⟨e, he, heq⟩ := List.mem_map.mp hm
    rw [← heq]
    have := msize_mem_le_entries he
    omega
  · rw [msize_strongRef]
    simp only []
    omega

/-- The export filter of AAFInspector.py applied to one node: class tag
"TimelineMobSlot" and a case-folded name in EXCLUDED_NAMES. -/
def inspExcludes (nm cls : String) : Bool :=
  cls == "TimelineMobSlot" && inspExcludedNames.contains (pyLower nm)

/-- AAFInspector.py _convert_node_to_dict, fused with the TreeItem
materialization it drives through childCount/child: the node is dropped
entirely when the filter matches, otherwise its converted children are the
converted survivors, in order. -/
def convertInsp (it : Item) : Option ONode :=
  if inspExcludes (itemName it) (itemCls it) then none
  else some (.mk (itemName it) (itemCls it) (itemValue it)
    (((matChildren it).attach.map fun c => convertInsp c.1).reduceOption))
termination_by msize it
decreasing_by exact msize_matChildren c.2

/-- AAFInspector-enhanced.py _convert_node_to_dict: identical traversal
without the exclusion filter (every recursive result is a dict, hence
truthy, so nothing is dropped). -/
def convertEnh (it : Item) : ONode :=
  .mk (itemName it) (itemCls it) (itemValue it)
    ((matChildren it).attach.map fun c => convertEnh c.1)
termination_by msize it
decreasing_by exact msize_matChildren c.2

/-- No node of a canonical document carries both a value and a non-empty
children list. -/
def nodeBothFree : ONode → Bool
  | .mk _ _ v cs => (v.isNone || cs.isEmpty) && cs.attach.all fun c => nodeBothFree c.1
decreasing_by all_goals (simp_wf; have := List.sizeOf_lt_of_mem c.2; omega)

/-- Some node of a canonical document (the root included) matches the
interactive exclusion predicate. -/
def containsExcludedSlot : ONode → Bool
  | .mk nm cls _ cs =>
      inspExcludes nm cls || cs.attach.any fun c => containsExcludedSlot c.1
decreasing_by all_goals (simp_wf; have := List.sizeOf_lt_of_mem c.2; omega)

/- ================================================================
   Part 5.  Worker.run from the batch converter.

   Worker.__init__ stores the file list, the output directory and the two
   aaf2 modules, and nothing else; in particular it never assigns
   self.is_running (only stop() ever does).  Reading an instance attribute
   that was never assigned raises AttributeError.  run() reads
   self.is_running at the top of every loop iteration and once more after
   the loop, inside a try/except that emits a single worker-level error
   signal.  _process_file has its own try/except: a file either produces
   exactly one JSON document or logs a per-file error, and its exceptions
   never reach run().  A file is abstracted to whether its open/convert/
   save pipeline succeeds.
   ================================================================ -/

/-- Outcome of Worker._process_file for one file. -/
inductive FileOutcome where
  | saved
  | errorLogged

/-- Outcome of one whole Worker.run call: the per-file results in order,
and how the loop ended. -/
inductive RunOutcome where
  | completed (results : List FileOutcome)
  | cancelled (results : List FileOutcome)
  | aborted (results : List FileOutcome)

/-- Worker._process_file: every exception is caught and logged per file. -/
def processFile (ok : Bool) : FileOutcome :=
  if ok then .saved else .errorLogged

/-- The loop of Worker.run, with the value the is_running attribute holds
throughout the call (none models the attribute never having been
assigned, in which case the very first read raises AttributeError and the
outer except aborts the whole batch). -/
def workerRunGo (isRunning : Option Bool) : List Bool → List FileOutcome → RunOutcome
  | [], acc =>
      match isRunning with
      | none => .aborted acc.reverse
      | some _ => .completed acc.reverse
  | f :: rest, acc =>
      match isRunning with
      | none => .aborted acc.reverse
      | some false => .cancelled acc.reverse
      | some true => workerRunGo isRunning rest (processFile f :: acc)

/-- Worker.run(files) with the given initial is_running attribute state.
The construction in the source always starts with the attribute unset. -/
def workerRun (isRunning : Option Bool) (files : List Bool) : RunOutcome :=
  workerRunGo isRunning files []

/- ================================================================
   Part 6.  Supporting lemmas.
   ================================================================ -/

/-- Total duration of a timeline prefix. -/
def sumDur (tl : List TimelineEvent) : Int :=
  (tl.map (fun e => e.duration_frames)).sum

/-- The cursor discipline of parse_components, phrased recursively: from
cursor position cur with k events already emitted, each event starts at
the running cursor and is numbered densely. -/
def chainedFrom (cur : Int) (k : Nat) : List TimelineEvent → Prop
  | [] => True
  | e :: rest =>
      e.start_time_frames = cur ∧ e.event_number = k + 1
        ∧ chainedFrom (cur + e.duration_frames) (k + 1) rest

theorem sumDur_nil : sumDur [] = 0 := rfl

theorem sumDur_cons (e : TimelineEvent) (tl : List TimelineEvent) :
    sumDur (e :: tl) = e.duration_frames + sumDur tl := by
  simp [sumDur]

theorem sumDur_append_one (tl : List TimelineEvent) (e : TimelineEvent) :
    sumDur (tl ++ [e]) = sumDur tl + e.duration_frames := by
  simp [sumDur]

theorem chainedFrom_append_one {tl : List TimelineEvent} {cur : Int} {k : Nat}
    {e : TimelineEvent} (h : chainedFrom cur k tl)
    (hs : e.start_time_frames = cur + sumDur tl)
    (hn : e.event_number = k + tl.length + 1) :
    chainedFrom cur k (tl ++ [e]) := by
  induction tl generalizing cur k with
  | nil =>
      simp only [List.nil_append, chainedFrom]
      refine ⟨?_, ?_, trivial⟩
      · rw [hs, sumDur_nil]; omega
      · simp at hn; omega
  | cons hd rest ih =>
      obtain ⟨h1, h2, h3⟩ := h
      refine ⟨h1, h2, ?_⟩
      refine ih h3 ?_ ?_
      · rw [hs, sumDur_cons]; omega
      · simp at hn ⊢; omega

theorem appendEffectLast_sumDur (tl : List TimelineEvent) (eff : EffectEvent) :
    sumDur (appendEffectLast tl eff) = sumDur tl := by
  induction tl, eff using appendEffectLast.induct with
  | case1 eff0 => rfl
  | case2 eff0 e => simp [appendEffectLast, sumDur]
  | case3 eff0 e e2 rest ih =>
      rw [appendEffectLast]
      rw [sumDur_cons, sumDur_cons, ih]

theorem appendEffectLast_length (tl : List TimelineEvent) (eff : EffectEvent) :
    (appendEffectLast tl eff).length = tl.length := by
  induction tl, eff using appendEffectLast.induct with
  | case1 eff0 => rfl
  | case2 eff0 e => rfl
  | case3 eff0 e e2 rest ih => simp [appendEffectLast, ih]

theorem appendEffectLast_chained {tl : List TimelineEvent} {eff : EffectEvent}
    {cur : Int} {k : Nat} (h : chainedFrom cur k tl) :
    chainedFrom cur k (appendEffectLast tl eff) := by
  induction tl, eff using appendEffectLast.induct generalizing cur k with
  | case1 eff0 => exact h
  | case2 eff0 e =>
      obtain ⟨h1, h2, h3⟩ := h
      exact ⟨h1, h2, trivial⟩
  | case3 eff0 e e2 rest ih =>
      obtain ⟨h1, h2, h3⟩ := h
      exact ⟨h1, h2, ih h3⟩

/-- The loop invariant of parse_components: the emitted timeline is
chained from cursor 0 with dense numbering, and current_time_frames equals
the total emitted duration. -/
def stateInv (st : List TimelineEvent × Int) : Prop :=
  chainedFrom 0 0 st.1 ∧ st.2 = sumDur st.1

theorem componentStep_inv {st st2 : List TimelineEvent × Int} {c : Json}
    (hI : stateInv st) (h : componentStep st c = .ok st2) : stateInv st2 := by
  unfold componentStep at h
  split at h
  · cases h; exact hI
  · split at h
    · split at h
      · cases h
      case _ duration heq =>
        cases h
        constructor
        · refine chainedFrom_append_one hI.1 ?_ ?_
          · simp [hI.2]
          · simp
        · simp only [sumDur_append_one]
          rw [hI.2]
    · split at h
      · split at h
        · cases h; exact hI
        · split at h
          · cases h
          · split at h
            · cases h; exact hI
            · cases h
              constructor
              · exact appendEffectLast_chained hI.1
              · rw [appendEffectLast_sumDur]; exact hI.2
      · cases h; exact hI

theorem runComponents_inv {cs : List Json} {st st2 : List TimelineEvent × Int}
    (hI : stateInv st) (h : runComponents st cs = .ok st2) : stateInv st2 := by
  induction cs generalizing st with
  | nil => rw [runComponents] at h; cases h; exact hI
  | cons c rest ih =>
      rw [runComponents] at h
      split at h
      · cases h
      case _ st3 heq => exact ih (componentStep_inv hI heq) h

/-- Bridge from the recursive cursor discipline to the indexed statement
of the invariant claim. -/
theorem chainedFrom_get {tl : List TimelineEvent} {cur : Int} {k : Nat}
    (h : chainedFrom cur k tl) :
    ∀ i (hi : i < tl.length),
      (tl.get ⟨i, hi⟩).start_time_frames = cur + sumDur (tl.take i)
        ∧ (tl.get ⟨i, hi⟩).event_number = k + i + 1 := by
  induction tl generalizing cur k with
  | nil => intro i hi; simp at hi
  | cons e rest ih =>
      intro i hi
      obtain ⟨h1, h2, h3⟩ := h
      match i with
      | 0 =>
          constructor
          · show e.start_time_frames = cur + sumDur ((e :: rest).take 0)
            rw [List.take_zero, sumDur_nil, h1]
            omega
          · simpa using h2
      | Nat.succ j =>
          have hj : j < rest.length := by simpa using hi
          have := ih h3 j hj
          constructor
          · have hg : ((e :: rest).get ⟨j + 1, hi⟩) = rest.get ⟨j, hj⟩ := rfl
            rw [hg, this.1]
            simp [sumDur_cons]
            omega
          · have hg : ((e :: rest).get ⟨j + 1, hi⟩) = rest.get ⟨j, hj⟩ := rfl
            rw [hg, this.2]
            omega

/-- Any timeline parse_components returns satisfies the loop invariant. -/
theorem parse_components_chained {node : Json} {tl : List TimelineEvent}
    (h : parse_components node = .ok tl) : chainedFrom 0 0 tl := by
  unfold parse_components at h
  split at h
  · cases h; trivial
  · split at h
    · cases h
    · split at h
      · cases h
      case _ st heq =>
        cases h
        have hbase : stateInv ([], 0) := by
          constructor
          · rw [chainedFrom]
            trivial
          · rfl
        exact (runComponents_inv hbase heq).1

theorem charListLe_total : ∀ as bs, (charListLe as bs || charListLe bs as) = true := by
  intro as
  induction as with
  | nil => intro bs; simp [charListLe]
  | cons a as ih =>
      intro bs
      cases bs with
      | nil => simp [charListLe]
      | cons b bs =>
          rw [charListLe, charListLe]
          rcases Nat.lt_trichotomy a.toNat b.toNat with h | h | h
          · simp [h, Nat.not_lt.mpr (Nat.le_of_lt h)]
          · simp only [h, Nat.lt_irrefl, if_false]
            exact ih bs
          · simp [h, Nat.not_lt.mpr (Nat.le_of_lt h)]

theorem charListLe_trans :
    ∀ as bs cs, charListLe as bs = true → charListLe bs cs = true →
      charListLe as cs = true := by
  intro as
  induction as with
  | nil => intro bs cs h1 h2; simp [charListLe]
  | cons a as ih =>
      intro bs cs h1 h2
      cases bs with
      | nil => simp [charListLe] at h1
      | cons b bs =>
          cases cs with
          | nil => simp [charListLe] at h2
          | cons c cs =>
              rw [charListLe] at h1 h2 ⊢
              split at h1
              case _ hab =>
                split at h2
                case _ hbc =>
                  have : a.toNat < c.toNat := Nat.lt_trans hab hbc
                  simp [this]
                case _ hbc =>
                  split at h2
                  case _ hcb => simp at h2
                  case _ hcb =>
                    have hbc2 : b.toNat = c.toNat := by omega
                    have : a.toNat < c.toNat := by omega
                    simp [this]
              case _ hab =>
                split at h1
                case _ hba => simp at h1
                case _ hba =>
                  have hab2 : a.toNat = b.toNat := by omega
                  split at h2
                  case _ hbc =>
                    have : a.toNat < c.toNat := by omega
                    simp [this]
                  case _ hbc =>
                    split at h2
                    case _ hcb => simp at h2
                    case _ hcb =>
                      have h3 : ¬ a.toNat < c.toNat := by omega
                      have h4 : ¬ c.toNat < a.toNat := by omega
                      simp only [h3, if_false, h4]
                      exact ih bs cs h1 h2

theorem propLe_total (a b : Item) : (propLe a b || propLe b a) = true :=
  charListLe_total _ _

theorem propLe_trans (a b c : Item) (h1 : propLe a b = true) (h2 : propLe b c = true) :
    propLe a c = true :=
  charListLe_trans _ _ _ h1 h2

/-- Splitting the component loop over a list decomposition. -/
theorem runComponents_append (xs ys : List Json) :
    ∀ st, runComponents st (xs ++ ys)
      = match runComponents st xs with
        | .error e => .error e
        | .ok st2 => runComponents st2 ys := by
  induction xs with
  | nil => intro st; rw [List.nil_append, runComponents]
  | cons c rest ih =>
      intro st
      rw [List.cons_append, runComponents, runComponents]
      cases componentStep st c with
      | error e => rfl
      | ok st2 => exact ih st2

/-- Since the Slots lookup passes property_name=None, parse_composition_mob
returns None on every input whatsoever. -/
theorem parse_composition_mob_eq_none (j : Json) :
    parse_composition_mob j = .ok none := by
  unfold parse_composition_mob
  rw [get_child_property_none]

/-- Since the Parameters lookup passes property_name=None, parse_effect
never extracts a parameter: on any dict it returns the default-named
effect with empty animated_params (and a non-dict argument raises). -/
theorem parse_effect_eq_empty (kvs : List (String × Json)) :
    parse_effect (.jdict kvs)
      = .ok ⟨(pyGet (.jdict kvs) "name").getD (jstrV "Unknown Effect"), []⟩ := by
  unfold parse_effect
  rw [get_child_property_none]
  rfl

/-- Since the Source Mob Ref lookup passes property_name=None, the clip
display name is "Unknown Clip" for every component. -/
theorem clipNameOf_eq_unknown (c : Json) : clipNameOf c = jstrV "Unknown Clip" := by
  unfold clipNameOf
  rw [get_child_property_none]

/-- True exactly for the Components children the loop skips entirely:
non-dict values and components that are neither SourceClip nor
OperationGroup (Filler, Transition, ...). -/
def componentIgnored (c : Json) : Bool :=
  !c.isDict || (!(classIs c "SourceClip") && !(classIs c "OperationGroup"))

theorem componentStep_ignored {c : Json} (h : componentIgnored c = true)
    (st : List TimelineEvent × Int) : componentStep st c = .ok st := by
  unfold componentIgnored at h
  unfold componentStep
  rcases Bool.or_eq_true_iff.mp h with h1 | h2
  · simp [h1]
  · have hs : classIs c "SourceClip" = false := by
      rcases Bool.and_eq_true_iff.mp h2 with ⟨ha, _⟩
      simpa using ha
    have ho : classIs c "OperationGroup" = false := by
      rcases Bool.and_eq_true_iff.mp h2 with ⟨_, hb⟩
      simpa using hb
    simp [hs, ho]

/- ================================================================
   Part 7.  Concrete documents for the scenario claims, built exactly in
   the canonical node shape the projectors emit.
   ================================================================ -/

/-- A canonical tree node with a name, a class tag and children. -/
def mkNode (nm cls : String) (cs : List Json) : Json :=
  .jdict [("name", jstrV nm), ("class", jstrV cls), ("children", .arr cs)]

/-- A scalar property leaf with a name and a value. -/
def valueLeaf (nm : String) (v : Json) : Json :=
  .jdict [("name", jstrV nm), ("class", jstrV "Property"), ("value", v)]

/-- A SourceClip component with the given Length, an optional StartTime,
and optional extra children (such as a Source Mob Ref wrapper). -/
def srcClipNode (len : Int) (tc : Option Int) (extras : List Json) : Json :=
  mkNode "SourceClip" "SourceClip"
    (valueLeaf "Length" (.scalar (.jint len))
      :: (match tc with
          | some t => [valueLeaf "StartTime" (.scalar (.jint t))]
          | none => [])
      ++ extras)

/-- The synthetic Source Mob Ref wrapper whose first child is the resolved
mob, carrying the display name the spec expects to be used. -/
def mobRefNode (mobName : String) : Json :=
  mkNode "Source Mob Ref" "DummyItem" [mkNode mobName "MasterMob" []]

/-- A ControlPoint with Time and Value scalars. -/
def controlPointNode (t : Int) (v : Json) : Json :=
  mkNode "ControlPoint" "ControlPoint"
    [valueLeaf "Time" (.scalar (.jint t)), valueLeaf "Value" v]

/-- The C2 scenario OperationGroup: one VaryingValue parameter "Opacity"
with ControlPoints (time 0, value 1.0) and (time 10, value 0.0). -/
def c2OpGroup : Json :=
  mkNode "Submaster" "OperationGroup"
    [mkNode "Parameters" "StrongRefVectorProperty"
      [mkNode "Opacity" "VaryingValue"
        [mkNode "ControlPoints" "StrongRefVectorProperty"
          [controlPointNode 0 (.scalar (.jfloat 1)),
           controlPointNode 10 (.scalar (.jfloat 0))]]]]

/-- The C2 scenario Components node: a SourceClip followed by the animated
OperationGroup. -/
def c2Components : Json :=
  mkNode "Components" "StrongRefVectorProperty" [srcClipNode 100 none [], c2OpGroup]

/-- The C3 scenario Components node: one SourceClip with Length 100,
StartTime 5 and a Source Mob Ref wrapper resolving to "ClipA". -/
def c3Components : Json :=
  mkNode "Components" "StrongRefVectorProperty"
    [srcClipNode 100 (some 5) [mobRefNode "ClipA"]]

/-- A CompositionMob whose single slot holds the given Components node. -/
def compMobNode (nm : String) (comps : Json) : Json :=
  mkNode nm "CompositionMob"
    [mkNode "Slots" "StrongRefVectorProperty"
      [mkNode "V1" "TimelineMobSlot" [comps]]]

/-- The C1 scenario document: two candidate compositions under the fixed
Header/Header/Content/ContentStorage/Mobs path, one yielding a single
unresolvable clip and one yielding a single named clip. -/
def c1Doc : Json :=
  mkNode "Root" "Root"
    [mkNode "Header" "Header"
      [mkNode "Header" "Header"
        [mkNode "Content" "StrongRefProperty"
          [mkNode "ContentStorage" "ContentStorage"
            [mkNode "Mobs" "StrongRefSetProperty"
              [compMobNode "NoName"
                 (mkNode "Components" "StrongRefVectorProperty" [srcClipNode 40 none []]),
               compMobNode "Named"
                 (mkNode "Components" "StrongRefVectorProperty"
                   [srcClipNode 40 none [mobRefNode "ClipB"]])]]]]]]

/-- The witness document for the invariant claim: two SourceClips of
lengths 100 and 50. -/
def c4Components : Json :=
  mkNode "Components" "StrongRefVectorProperty"
    [srcClipNode 100 none [], srcClipNode 50 none []]

/-- The timeline parse_components reconstructs from c4Components. -/
def c4Timeline : List TimelineEvent :=
  [⟨1, jstrV "Unknown Clip", 0, 100, none, []⟩,
   ⟨2, jstrV "Unknown Clip", 100, 50, none, []⟩]

/-- A Filler component: a dict whose class is neither SourceClip nor
OperationGroup. -/
def fillerNode : Json :=
  .jdict [("name", jstrV "Filler"), ("class", jstrV "Filler"),
          ("children", .arr [valueLeaf "Length" (.scalar (.jint 25))])]

/- ================================================================
   Part 8.  The claims.
   ================================================================ -/

/-- Claim C1 (code bug).  The claim states that main selects the best
candidate timeline across the CompositionMob nodes under
Header/Header/Content/ContentStorage/Mobs, preferring more events and, on
a one-event tie, a name other than "Unknown Clip", and that in the
two-composition scenario the named-clip timeline is the output.  In the
code, parse_composition_mob looks up Slots through
get_child_property(.., property_name=None), which is always None, so every
composition parses to None and main always reports the timeline-not-found
error: on the scenario document the result is noValidTimeline, not the
named-clip timeline. -/
theorem c1_best_timeline_bug :
    (∀ j : Json, parse_composition_mob j = .ok none)
      ∧ mainSelect c1Doc = .noValidTimeline :=
  ⟨parse_composition_mob_eq_none, rfl⟩

/-- Claim C2 (code bug).  The claim states that an OperationGroup
following a clip contributes an EffectEvent exactly when its Parameters
yield a VaryingValue with at least one keyframe, and that the Opacity
scenario attaches one EffectEvent with two keyframes.  In the code,
parse_effect looks up Parameters through get_child_property(..,
property_name=None), which is always None, so every parsed effect has
empty animated_params and no EffectEvent is ever appended: the scenario
clip ends with an empty effects list. -/
theorem c2_effect_bug :
    (∀ kvs : List (String × Json),
        parse_effect (.jdict kvs)
          = .ok ⟨(pyGet (.jdict kvs) "name").getD (jstrV "Unknown Effect"), []⟩)
      ∧ parse_components c2Components
          = .ok [⟨1, jstrV "Unknown Clip", 0, 100, none, []⟩] :=
  ⟨parse_effect_eq_empty, rfl⟩

/-- Claim C3 (code bug).  The claim states that a SourceClip event takes
its duration from Length (default 0), its in-point from StartTime, and its
name from the first grandchild of the Source Mob Ref wrapper when that
wrapper is present.  In the code, the Source Mob Ref lookup passes
property_name=None and is always None, so the name is "Unknown Clip" even
when the wrapper is present with a named grandchild (ClipA below); the
duration and in-point behave as claimed except that a truthy unparseable
Length string raises ValueError instead of defaulting to 0 (see pyInt). -/
theorem c3_clip_name_bug :
    (∀ c : Json, clipNameOf c = jstrV "Unknown Clip")
      ∧ parse_components c3Components
          = .ok [⟨1, jstrV "Unknown Clip", 0, 100, some (.scalar (.jint 5)), []⟩] :=
  ⟨clipNameOf_eq_unknown, rfl⟩

/-- Claim C4 (confirmed).  For every timeline parse_components produces,
event i starts at the sum of the durations of events 0..i-1 and carries
the dense 1-based number i+1, by construction of the loop. -/
theorem c4_timeline_invariant (node : Json) (tl : List TimelineEvent)
    (h : parse_components node = .ok tl) (i : Nat) (hi : i < tl.length) :
    (tl.get ⟨i, hi⟩).start_time_frames = sumDur (tl.take i)
      ∧ (tl.get ⟨i, hi⟩).event_number = i + 1 := by
  have hc := parse_components_chained h
  have := chainedFrom_get hc i hi
  constructor
  · have h0 : (0 : Int) + sumDur (tl.take i) = sumDur (tl.take i) := by omega
    rw [this.1, h0]
  · rw [this.2]
    omega

/-- Witness for C4 at the two-clip document: the second event starts after
the first clip's 100 frames and is numbered 2. -/
theorem c4_timeline_invariant_witness :
    (c4Timeline.get ⟨1, by simp [c4Timeline]⟩).start_time_frames
        = sumDur (c4Timeline.take 1)
      ∧ (c4Timeline.get ⟨1, by simp [c4Timeline]⟩).event_number = 1 + 1 :=
  c4_timeline_invariant c4Components c4Timeline rfl 1 (by simp [c4Timeline])

/-- Claim C10 (confirmed).  A Components child that is not a dict or whose
class is neither SourceClip nor OperationGroup is skipped entirely: the
step leaves the state untouched, so deleting it from the component list
changes nothing -- the gap is collapsed and later clips keep their
start_time_frames. -/
theorem c10_ignored_component {c : Json} (h : componentIgnored c = true) :
    (∀ st, componentStep st c = .ok st)
      ∧ (∀ (pre post : List Json) (st : List TimelineEvent × Int),
          runComponents st (pre ++ c :: post) = runComponents st (pre ++ post)) := by
  refine ⟨componentStep_ignored h, ?_⟩
  intro pre post st
  rw [runComponents_append, runComponents_append]
  cases runComponents st pre with
  | error e => rfl
  | ok st2 =>
      simp only []
      rw [runComponents, componentStep_ignored h]

/-- Witness for C10: a Filler between two SourceClips yields the same run
as the two clips alone, starting from the empty state. -/
theorem c10_ignored_component_witness :
    runComponents ([], 0)
        ([srcClipNode 100 none []] ++ fillerNode :: [srcClipNode 50 none []])
      = runComponents ([], 0) ([srcClipNode 100 none []] ++ [srcClipNode 50 none []]) :=
  (c10_ignored_component (by rfl)).2 [srcClipNode 100 none []]
    [srcClipNode 50 none []] ([], 0)

/-- Claim C8 (code bug).  The claim states that each batch source file
either produces one output document or is reported as a per-file error,
and that one file's failure never aborts the rest.  Worker.__init__ never
assigns self.is_running (only stop() does), so the first read of the
attribute in run() raises AttributeError, the outer except fires, and
every batch aborts through the worker-level error signal with zero files
processed.  The second conjunct shows the loop would behave exactly as
claimed had the flag been initialized to True. -/
theorem c8_worker_abort :
    (∀ files : List Bool, workerRun none files = .aborted [])
      ∧ workerRun (some true) [true, false, true]
          = .completed [.saved, .errorLogged, .saved] := by
  constructor
  · intro files
    cases files with
    | nil => rfl
    | cons f rest => rfl
  · rfl

theorem convertEnh_bothFree (it : Item) : nodeBothFree (convertEnh it) = true := by
  induction it using convertEnh.induct with
  | _ it ih =>
      rw [convertEnh, nodeBothFree]
      simp only [Bool.and_eq_true, List.all_eq_true]
      constructor
      · cases it with
        | scalarProp p v => simp [matChildren, itemValue]
        | aafObject nm cls b props mt st => simp [itemValue]
        | refDummy l t => simp [itemValue]
        | strongRef p t => simp [itemValue]
        | strongRefVector p ts => simp [itemValue]
        | strongRefSet p es => simp [itemValue]
        | rootList xs => simp [itemValue]
      · intro c hc
        obtain ⟨d, hd, heq⟩ := List.mem_map.mp c.2
        rw [← heq]
        exact ih d

theorem buildNode_bothFree (it : Item) (nm : String) :
    nodeBothFree (buildNode it nm) = true := by
  induction it, nm using buildNode.induct with
  | case1 nodeName name cls isCompMob props mobT slotT ih2 ih1 =>
      rw [buildNode, nodeBothFree]
      simp only [Bool.and_eq_true, List.all_eq_true]
      constructor
      · simp
      · intro c hc
        obtain ⟨l, hl, hcl⟩ := List.mem_flatten.mp c.2
        obtain ⟨p, hp, hpl⟩ := List.mem_map.mp hl
        rw [← hpl] at hcl
        by_cases hcond : (isCompMob && (sortKeyOf p.1 == "Slots")) = true
        · rw [if_pos hcond] at hcl
          obtain ⟨l2, hl2, hcl2⟩ := List.mem_flatten.mp hcl
          obtain ⟨s, hs, hsl⟩ := List.mem_map.mp hl2
          rw [← hsl] at hcl2
          by_cases hexc :
              (batchExcludedTrackNames.contains (pyLower (sortKeyOf s.1))) = true
          · rw [if_pos hexc] at hcl2
            simp at hcl2
          · rw [if_neg hexc] at hcl2
            simp only [List.mem_singleton] at hcl2
            rw [hcl2]
            exact ih2 p s
        · rw [if_neg hcond] at hcl
          simp only [List.mem_singleton] at hcl
          rw [hcl]
          exact ih1 p
  | case2 nodeName pname ts ih1 =>
      rw [buildNode, nodeBothFree]
      simp only [Bool.and_eq_true, List.all_eq_true]
      refine ⟨by simp, ?_⟩
      intro c hc
      obtain ⟨d, hd, hdeq⟩ := List.mem_map.mp c.2
      rw [← hdeq]
      exact ih1 d
  | case3 nodeName pname es ih1 =>
      rw [buildNode, nodeBothFree]
      simp only [Bool.and_eq_true, List.all_eq_true]
      refine ⟨by simp, ?_⟩
      intro c hc
      obtain ⟨d, hd, hdeq⟩ := List.mem_map.mp c.2
      rw [← hdeq]
      exact ih1 d
  | case4 nodeName pname t ih1 =>
      rw [buildNode, nodeBothFree]
      simp only [Bool.and_eq_true, List.all_eq_true]
      refine ⟨by simp, ?_⟩
      intro c hc
      have hm : c.1 ∈ [buildNode t (buildChildName t)] := c.2
      simp only [List.mem_singleton] at hm
      rw [hm]
      exact ih1
  | case5 nodeName pname =>
      rw [buildNode, nodeBothFree]
      simp
  | case6 nodeName pname v =>
      rw [buildNode, nodeBothFree]
      simp
  | case7 nodeName label target =>
      rw [buildNode, nodeBothFree]
      simp
  | case8 nodeName xs =>
      rw [buildNode, nodeBothFree]
      simp

/-- Claim C5 (confirmed).  No node emitted by the batch converter's
build_node or by the enhanced interactive export carries both a value and
a populated children key: each branch of both builders sets exactly one of
the two (or neither, for a childless reference). -/
theorem c5_value_xor_children :
    (∀ (it : Item) (nm : String), nodeBothFree (buildNode it nm) = true)
      ∧ (∀ it : Item, nodeBothFree (convertEnh it) = true) :=
  ⟨buildNode_bothFree, convertEnh_bothFree⟩

/-- Rewriting a map over attach whose body only uses the element. -/
theorem attach_map_fst {α β : Type} (l : List α) (g : α → β) :
    (l.attach.map fun s => g s.1) = l.map g := by
  have h : (l.attach.map fun s => g s.1)
      = (l.attach.map Subtype.val).map g := by
    rw [List.map_map]
    rfl
  rw [h, List.attach_map_subtype_val]

theorem flatten_map_if {α β : Type} (P : α → Bool) (f : α → β) :
    ∀ l : List α,
      ((l.map fun a => if P a then ([] : List β) else [f a]).flatten)
        = (l.filter (fun a => !P a)).map f := by
  intro l
  induction l with
  | nil => rfl
  | cons a as ih =>
      simp only [List.map_cons, List.flatten_cons, List.filter_cons]
      by_cases hp : P a = true
      · rw [if_pos hp]
        simp only [hp, Bool.not_true, List.nil_append]
        exact ih
      · rw [if_neg hp]
        have hp2 : P a = false := by
          cases hpa : P a
          · rfl
          · exact absurd hpa hp
        simp only [hp2, Bool.not_false, if_true, List.map_cons]
        rw [List.singleton_append, ih]

theorem flatten_map_singleton {α β : Type} (f : α → β) :
    ∀ l : List α, ((l.map fun a => [f a]).flatten) = l.map f := by
  intro l
  induction l with
  | nil => rfl
  | cons a as ih =>
      simp only [List.map_cons, List.flatten_cons, List.singleton_append]
      rw [ih]

/-- A node survives the interactive filter exactly when it is not an
excluded slot. -/
theorem convertInsp_none_iff (it : Item) :
    convertInsp it = none ↔ inspExcludes (itemName it) (itemCls it) = true := by
  rw [convertInsp]
  by_cases hex : inspExcludes (itemName it) (itemCls it) = true
  · simp [hex]
  · simp [hex]

theorem convertInsp_no_excluded (it : Item) :
    ∀ n, convertInsp it = some n → containsExcludedSlot n = false := by
  induction it using convertInsp.induct with
  | case1 it hex =>
      intro n h
      rw [convertInsp, if_pos hex] at h
      cases h
  | case2 it hex ih =>
      intro n h
      rw [convertInsp, if_neg hex] at h
      have hn : n = ONode.mk (itemName it) (itemCls it) (itemValue it)
          (((matChildren it).attach.map fun c => convertInsp c.1).reduceOption) := by
        cases h
        rfl
      subst hn
      rw [containsExcludedSlot]
      have hex2 : inspExcludes (itemName it) (itemCls it) = false := by
        cases hv : inspExcludes (itemName it) (itemCls it)
        · rfl
        · exact absurd hv hex
      rw [hex2]
      simp only [Bool.false_or, List.any_eq_false]
      intro c hc
      have hc1 : some c.1 ∈ (matChildren it).attach.map fun d => convertInsp d.1 :=
        List.reduceOption_mem_iff.mp c.2
      obtain ⟨d, hd, hdeq⟩ := List.mem_map.mp hc1
      have := ih d c.1 hdeq
      simp [this]

/-- build_node on a CompositionMob whose single property is the Slots
vector: the slots are spliced in place of the property, filtered only by
lower-cased name against EXCLUDED_TRACK_NAMES. -/
theorem buildNode_compMob_slots (nm : Option String) (cls : String)
    (slots : List Item) (dn : String) :
    buildNode (.aafObject nm cls true [.strongRefVector "Slots" slots] none none) dn
      = .mk dn cls none
          ((slots.filter fun s =>
              !(batchExcludedTrackNames.contains (pyLower (sortKeyOf s)))).map
            (fun s => buildNode s (sortKeyOf s))) := by
  rw [buildNode]
  congr 1
  rw [attach_map_fst _ (fun a =>
    if true && (sortKeyOf a == "Slots") then
      ((slotsValueList a).attach.map fun s =>
        if batchExcludedTrackNames.contains (pyLower (sortKeyOf s.1)) then
          ([] : List ONode)
        else [buildNode s.1 (sortKeyOf s.1)]).flatten
    else [buildNode a (sortKeyOf a)])]
  simp only [List.map_cons, List.map_nil, List.flatten_cons, List.flatten_nil,
    List.append_nil]
  have hcond : (true && (sortKeyOf (Item.strongRefVector "Slots" slots) == "Slots"))
      = true := rfl
  rw [if_pos hcond]
  rw [attach_map_fst _ (fun s =>
    if batchExcludedTrackNames.contains (pyLower (sortKeyOf s)) then
      ([] : List ONode)
    else [buildNode s (sortKeyOf s)])]
  exact flatten_map_if _ _ slots

/-- Claim C6 (corrected).  As amended: the interactive export
(AAFInspector.py) excludes a node iff its class is "TimelineMobSlot" and
its case-folded name is in the exclusion set, at any depth, removing
exactly that subtree, so no such node ever appears in its output.  The
batch converter instead filters only the direct slot children of a
CompositionMob's Slots property, testing only the case-folded slot name
(no class test), so excluded-named slot-class nodes elsewhere are kept. -/
theorem c6_exclusion_amended :
    (∀ it : Item,
        convertInsp it = none ↔ inspExcludes (itemName it) (itemCls it) = true)
      ∧ (∀ (it : Item) (n : ONode),
          convertInsp it = some n → containsExcludedSlot n = false)
      ∧ (∀ (nm : Option String) (cls : String) (slots : List Item) (dn : String),
          buildNode (.aafObject nm cls true [.strongRefVector "Slots" slots] none none) dn
            = .mk dn cls none
                ((slots.filter fun s =>
                    !(batchExcludedTrackNames.contains (pyLower (sortKeyOf s)))).map
                  (fun s => buildNode s (sortKeyOf s)))) :=
  ⟨convertInsp_none_iff, convertInsp_no_excluded, buildNode_compMob_slots⟩

/-- A TimelineMobSlot named A1 sitting under a MasterMob (not under a
CompositionMob's Slots). -/
def c6Slot : Item := .aafObject (some "A1") "TimelineMobSlot" false [] none none

def c6Mob : Item :=
  .aafObject (some "M") "MasterMob" false
    [.strongRefVector "Slots" [c6Slot]] none none

/-- Counterexample to C6 as stated: the batch converter's output for a
MasterMob contains a node whose class is the slot class and whose
case-folded name is in the exclusion set -- exclusion is not applied at
arbitrary depth, only under a CompositionMob's Slots. -/
theorem attach_any_fst {α : Type} (l : List α) (g : α → Bool) :
    (l.attach.any fun s => g s.1) = l.any g := by
  rw [Bool.eq_iff_iff, List.any_eq_true, List.any_eq_true]
  constructor
  · rintro ⟨x, hx, hg⟩
    exact ⟨x.1, x.2, hg⟩
  · rintro ⟨a, ha, hg⟩
    exact ⟨⟨a, ha⟩, List.mem_attach _ _, hg⟩

theorem containsExcludedSlot_eq (nm cls : String) (v : Option PVal)
    (cs : List ONode) :
    containsExcludedSlot (.mk nm cls v cs)
      = (inspExcludes nm cls || cs.any containsExcludedSlot) := by
  rw [containsExcludedSlot, attach_any_fst]

/-- The batch document the MasterMob with an A1 slot converts to. -/
theorem c6_buildNode_eval :
    buildNode c6Mob "Header"
      = .mk "Header" "MasterMob" none
          [.mk "Slots" "StrongRefVectorProperty" none
            [.mk "A1" "TimelineMobSlot" none []]] := by
  unfold c6Mob
  rw [buildNode]
  rw [attach_map_fst _ (fun a =>
    if false && (sortKeyOf a == "Slots") then
      ((slotsValueList a).attach.map fun s =>
        if batchExcludedTrackNames.contains (pyLower (sortKeyOf s.1)) then
          ([] : List ONode)
        else [buildNode s.1 (sortKeyOf s.1)]).flatten
    else [buildNode a (sortKeyOf a)])]
  simp only [Bool.false_and, if_false, List.map_cons, List.map_nil,
    List.flatten_cons, List.flatten_nil, List.append_nil]
  rw [buildNode]
  rw [attach_map_fst _ (fun c => buildNode c (buildChildName c))]
  simp only [List.map_cons, List.map_nil]
  unfold c6Slot
  rw [buildNode]
  rfl

theorem c6_counterexample :
    containsExcludedSlot (buildNode c6Mob "Header") = true := by
  rw [c6_buildNode_eval]
  rw [containsExcludedSlot_eq]
  refine Bool.or_eq_true_iff.mpr (Or.inr ?_)
  simp only [List.any_cons, List.any_nil]
  rw [containsExcludedSlot_eq]
  refine Bool.or_eq_true_iff.mpr (Or.inl ?_)
  refine Bool.or_eq_true_iff.mpr (Or.inr ?_)
  simp only [List.any_cons, List.any_nil]
  rw [containsExcludedSlot_eq]
  refine Bool.or_eq_true_iff.mpr (Or.inl ?_)
  refine Bool.or_eq_true_iff.mpr (Or.inl ?_)
  rfl

/-- Witness for C6: a plain property node survives the interactive filter
and its converted form contains no excluded slot. -/
theorem c6_exclusion_amended_witness :
    containsExcludedSlot (.mk "x" "Property" (some .pnone) []) = false :=
  c6_exclusion_amended.2.1 (.scalarProp "x" .pnone)
    (.mk "x" "Property" (some .pnone) [])
    (by rw [convertInsp]; rfl)

/-- The children build_node emits for an object that is not a
CompositionMob: one per property, in source property order. -/
theorem buildNode_plain_children (nm : Option String) (cls : String)
    (props : List Item) (dn : String) :
    (buildNode (.aafObject nm cls false props none none) dn).children
      = props.map (fun p => buildNode p (sortKeyOf p)) := by
  rw [buildNode]
  rw [attach_map_fst _ (fun a =>
    if false && (sortKeyOf a == "Slots") then
      ((slotsValueList a).attach.map fun s =>
        if batchExcludedTrackNames.contains (pyLower (sortKeyOf s.1)) then
          ([] : List ONode)
        else [buildNode s.1 (sortKeyOf s.1)]).flatten
    else [buildNode a (sortKeyOf a)])]
  simp only [Bool.false_and, if_false, ONode.children]
  exact flatten_map_singleton _ props

/-- Claim C7 (corrected).  As amended: in the interactive tree an Object's
materialized children are exactly its properties sorted stably by name
(merge sort), with up to two synthetic back-reference wrappers appended
after them when the object carries mob/slot references, so childCount is
the property count plus the injected wrapper count; in the batch
projection an Object node (outside the CompositionMob Slots special case)
gets exactly one child per property in the source's original property
order, with no sort. -/
theorem c7_children_amended :
    (∀ (nm : Option String) (cls : String) (b : Bool) (props : List Item),
        matChildren (.aafObject nm cls b props none none) = props.mergeSort propLe
          ∧ (matChildren (.aafObject nm cls b props none none)).Perm props
          ∧ List.Pairwise (fun x y => propLe x y = true)
              (matChildren (.aafObject nm cls b props none none)))
      ∧ (∀ (nm : Option String) (cls : String) (b : Bool) (props : List Item)
            (mt st : Option Item),
          childCount (.aafObject nm cls b props mt st)
            = props.length + mt.toList.length + st.toList.length)
      ∧ (∀ (nm : Option String) (cls : String) (props : List Item) (dn : String),
          (buildNode (.aafObject nm cls false props none none) dn).children
            = props.map (fun p => buildNode p (sortKeyOf p))
          ∧ ((buildNode (.aafObject nm cls false props none none) dn).children).length
            = props.length) := by
  refine ⟨?_, ?_, ?_⟩
  · intro nm cls b props
    have hm : matChildren (.aafObject nm cls b props none none)
        = props.mergeSort propLe := by
      rw [matChildren]
      simp
    refine ⟨hm, ?_, ?_⟩
    · rw [hm]
      exact List.mergeSort_perm props propLe
    · rw [hm]
      exact List.sorted_mergeSort propLe_trans propLe_total props
  · intro nm cls b props mt st
    rw [childCount]
    cases mt <;> cases st <;>
      (rw [matChildren]
       simp only [List.length_append, List.length_mergeSort]
       simp)
  · intro nm cls props dn
    refine ⟨buildNode_plain_children nm cls props dn, ?_⟩
    rw [buildNode_plain_children, List.length_map]

def c7PropB : Item := .scalarProp "b" (.pint 1)

def c7PropA : Item := .scalarProp "a" (.pint 2)

/-- An object whose properties arrive in the order b, a. -/
def c7Obj : Item := .aafObject (some "O") "Sequence" false [c7PropB, c7PropA] none none

/-- Counterexample to C7 as stated: the batch projection emits the
children in source property order b, a, which is not ordered by name
(strLeB "b" "a" is false), so Object children are not always sorted by
property name, and not both tools sort. -/
theorem c7_counterexample :
    ((buildNode c7Obj "O").children.map ONode.name) = ["b", "a"]
      ∧ strLeB "b" "a" = false := by
  constructor
  · unfold c7Obj
    rw [buildNode_plain_children]
    unfold c7PropB c7PropA
    simp only [List.map_cons, List.map_nil]
    rw [buildNode, buildNode]
    rfl
  · rfl

/-- Claim C9 (corrected).  As amended: child(node, row) returns the
sentinel for every row at or beyond the child count and never returns a
node of a different row (an in-range request returns exactly that row's
node); negative rows also return the sentinel for every node kind except
keyed-set reference nodes, where the guard only checks the upper bound,
so a negative row within -(reference count) wraps Python-style to a node
counted from the end, and a more negative row raises IndexError. -/
theorem c9_child_amended (it : Item) (row : Int) :
    ((childCount it : Int) ≤ row → childAt it row = .ok none)
      ∧ (setEntries it = none → row < 0 → childAt it row = .ok none)
      ∧ (∀ es, setEntries it = some es → row < 0 →
          ((-(es.length : Int) ≤ row → ∃ x, childAt it row = .ok (some x))
            ∧ (row < -(es.length : Int) → childAt it row = .error ())))
      ∧ (0 ≤ row → row < (childCount it : Int) →
          childAt it row = .ok (matChildren it)[row.toNat]?) := by
  cases it with
  | strongRefVector p ts =>
      refine ⟨?_, ?_, ?_, ?_⟩
      · intro h
        rw [childCount, matChildren] at h
        rw [childAt]
        split
        case _ hcond => exfalso; simp at hcond; omega
        case _ => rfl
      · intro hset hneg
        rw [childAt]
        split
        case _ hcond => exfalso; simp at hcond; omega
        case _ => rfl
      · intro es0 hset
        simp [setEntries] at hset
      · intro h0 hlt
        rw [childCount, matChildren] at hlt
        rw [childAt, matChildren]
        split
        case _ => rfl
        case _ hcond => exfalso; simp at hcond; omega
  | strongRefSet p es =>
      have hlen : (sortEntries es).length = es.length := by
        rw [sortEntries, List.length_mergeSort]
      refine ⟨?_, ?_, ?_, ?_⟩
      · intro h
        rw [childCount, matChildren, List.length_map, hlen] at h
        rw [childAt]
        split
        case _ hcond => exfalso; omega
        case _ => rfl
      · intro hset
        simp [setEntries] at hset
      · intro es2 hset hneg
        have hlen2 : es2.length = es.length := by
          rw [setEntries] at hset
          cases hset
          rfl
        constructor
        · intro hge
          rw [childAt]
          rw [if_pos (by omega : row < ((sortEntries es).length : Int))]
          rw [pyIndexL]
          simp only [if_pos hneg]
          have hcond : 0 ≤ row + ((sortEntries es).length : Int)
              ∧ (row + ((sortEntries es).length : Int)).toNat
                  < (sortEntries es).length := by
            constructor
            · omega
            · omega
          rw [dif_pos hcond]
          exact ⟨_, rfl⟩
        · intro hlt2
          rw [childAt]
          rw [if_pos (by omega : row < ((sortEntries es).length : Int))]
          rw [pyIndexL]
          simp only [if_pos hneg]
          rw [dif_neg (by omega)]
      · intro h0 hlt
        rw [childCount, matChildren, List.length_map, hlen] at hlt
        rw [childAt]
        rw [if_pos (by omega : row < ((sortEntries es).length : Int))]
        rw [pyIndexL]
        simp only [if_neg (by omega : ¬ row < 0)]
        have hcond : 0 ≤ row ∧ row.toNat < (sortEntries es).length := by
          constructor
          · omega
          · omega
        rw [dif_pos hcond]
        rw [matChildren]
        rw [List.getElem?_map]
        rw [List.getElem?_eq_getElem hcond.2]
        rfl
  | aafObject a b c d e f =>
      refine ⟨?_, ?_, ?_, ?_⟩
      · intro h
        rw [childCount] at h
        rw [childAt] <;> try (intro a2 b2 h2; cases h2)
        split
        case _ hcond => exfalso; simp at hcond; omega
        case _ => rfl
      · intro hset hneg
        rw [childAt] <;> try (intro a2 b2 h2; cases h2)
        split
        case _ hcond => exfalso; simp at hcond; omega
        case _ => rfl
      · intro es0 hset
        simp [setEntries] at hset
      · intro h0 hlt
        rw [childCount] at hlt
        rw [childAt] <;> try (intro a2 b2 h2; cases h2)
        split
        case _ => rfl
        case _ hcond => exfalso; simp at hcond; omega
  | refDummy a b =>
      refine ⟨?_, ?_, ?_, ?_⟩
      · intro h
        rw [childCount] at h
        rw [childAt] <;> try (intro a2 b2 h2; cases h2)
        split
        case _ hcond => exfalso; simp at hcond; omega
        case _ => rfl
      · intro hset hneg
        rw [childAt] <;> try (intro a2 b2 h2; cases h2)
        split
        case _ hcond => exfalso; simp at hcond; omega
        case _ => rfl
      · intro es0 hset
        simp [setEntries] at hset
      · intro h0 hlt
        rw [childCount] at hlt
        rw [childAt] <;> try (intro a2 b2 h2; cases h2)
        split
        case _ => rfl
        case _ hcond => exfalso; simp at hcond; omega
  | strongRef a b =>
      refine ⟨?_, ?_, ?_, ?_⟩
      · intro h
        rw [childCount] at h
        rw [childAt] <;> try (intro a2 b2 h2; cases h2)
        split
        case _ hcond => exfalso; simp at hcond; omega
        case _ => rfl
      · intro hset hneg
        rw [childAt] <;> try (intro a2 b2 h2; cases h2)
        split
        case _ hcond => exfalso; simp at hcond; omega
        case _ => rfl
      · intro es0 hset
        simp [setEntries] at hset
      · intro h0 hlt
        rw [childCount] at hlt
        rw [childAt] <;> try (intro a2 b2 h2; cases h2)
        split
        case _ => rfl
        case _ hcond => exfalso; simp at hcond; omega
  | scalarProp a b =>
      refine ⟨?_, ?_, ?_, ?_⟩
      · intro h
        rw [childCount] at h
        rw [childAt] <;> try (intro a2 b2 h2; cases h2)
        split
        case _ hcond => exfalso; simp at hcond; omega
        case _ => rfl
      · intro hset hneg
        rw [childAt] <;> try (intro a2 b2 h2; cases h2)
        split
        case _ hcond => exfalso; simp at hcond; omega
        case _ => rfl
      · intro es0 hset
        simp [setEntries] at hset
      · intro h0 hlt
        rw [childCount] at hlt
        rw [childAt] <;> try (intro a2 b2 h2; cases h2)
        split
        case _ => rfl
        case _ hcond => exfalso; simp at hcond; omega
  | rootList a =>
      refine ⟨?_, ?_, ?_, ?_⟩
      · intro h
        rw [childCount] at h
        rw [childAt] <;> try (intro a2 b2 h2; cases h2)
        split
        case _ hcond => exfalso; simp at hcond; omega
        case _ => rfl
      · intro hset hneg
        rw [childAt] <;> try (intro a2 b2 h2; cases h2)
        split
        case _ hcond => exfalso; simp at hcond; omega
        case _ => rfl
      · intro es0 hset
        simp [setEntries] at hset
      · intro h0 hlt
        rw [childCount] at hlt
        rw [childAt] <;> try (intro a2 b2 h2; cases h2)
        split
        case _ => rfl
        case _ hcond => exfalso; simp at hcond; omega

def c9VecEx : Item := .strongRefVector "V" [.scalarProp "x" .pnone]

def c9SetEx : Item := .strongRefSet "S" [(3, .scalarProp "y" .pnone)]

/-- Witness for C9: an out-of-range row on a vector node yields the
sentinel, and row -1 on a one-entry keyed-set node yields a node instead
of the sentinel. -/
theorem c9_child_amended_witness :
    childAt c9VecEx 5 = .ok none
      ∧ (∃ x, childAt c9SetEx (-1) = .ok (some x)) :=
  ⟨(c9_child_amended c9VecEx 5).1 (by decide),
   ((c9_child_amended c9SetEx (-1)).2.2.1 [(3, .scalarProp "y" .pnone)] rfl
      (by decide)).1 (by decide)⟩

unseal List.mergeSort List.merge in
/-- Counterexample to C9 as stated: on a one-entry keyed-set node, row -1
returns a node rather than the no-such-child sentinel, and row -2 raises
IndexError, while the claim says every negative row yields the sentinel
and never raises. -/
theorem c9_counterexample :
    childAt c9SetEx (-1) = .ok (some (.scalarProp "y" .pnone))
      ∧ childAt c9SetEx (-1) ≠ .ok none
      ∧ childAt c9SetEx (-2) = .error () := by
  refine ⟨rfl, ?_, rfl⟩
  intro h
  rw [show childAt c9SetEx (-1)
      = Except.ok (some (Item.scalarProp "y" PVal.pnone)) from rfl] at h
  simp at h
